import Mathlib

set_option autoImplicit false

/-
Verification of the meta_library collection-and-deduplication pipeline.

The Python sources are shallowly embedded: every dict-shaped record becomes a
structure, every loop becomes a fold or structural recursion, and every I/O
effect (HTTP download, image-host upload, durable file write, database upsert)
is either passed in as an explicit oracle function or recorded in an explicit
event trace.  Machine-level hashing (hashlib.md5) is implemented bit-faithfully
over natural numbers reduced modulo 2^32.
-/

namespace MetaLibrary

/-! ## Bytes and MD5 (embedding of hashlib.md5(...).hexdigest()) -/

/-- Raw byte strings are lists of naturals below 256. -/
abbrev Bytes := List Nat

/-- Reduce modulo 2^32, the word size of the MD5 state. -/
def w32 (n : Nat) : Nat := n % 4294967296

/-- 32-bit addition with wraparound. -/
def wadd (a b : Nat) : Nat := w32 (a + b)

/-- 32-bit bitwise complement. -/
def wnot (a : Nat) : Nat := 4294967295 - w32 a

/-- Rotate a 32-bit word left by s bits. -/
def rotl (x s : Nat) : Nat :=
  w32 (w32 x * 2 ^ s) ||| (w32 x / 2 ^ (32 - s))

/-- The 64 MD5 sine-derived round constants. -/
def md5K : List Nat :=
  [0xd76aa478, 0xe8c7b756, 0x242070db, 0xc1bdceee,
   0xf57c0faf, 0x4787c62a, 0xa8304613, 0xfd469501,
   0x698098d8, 0x8b44f7af, 0xffff5bb1, 0x895cd7be,
   0x6b901122, 0xfd987193, 0xa679438e, 0x49b40821,
   0xf61e2562, 0xc040b340, 0x265e5a51, 0xe9b6c7aa,
   0xd62f105d, 0x02441453, 0xd8a1e681, 0xe7d3fbc8,
   0x21e1cde6, 0xc33707d6, 0xf4d50d87, 0x455a14ed,
   0xa9e3e905, 0xfcefa3f8, 0x676f02d9, 0x8d2a4c8a,
   0xfffa3942, 0x8771f681, 0x6d9d6122, 0xfde5380c,
   0xa4beea44, 0x4bdecfa9, 0xf6bb4b60, 0xbebfbc70,
   0x289b7ec6, 0xeaa127fa, 0xd4ef3085, 0x04881d05,
   0xd9d4d039, 0xe6db99e5, 0x1fa27cf8, 0xc4ac5665,
   0xf4292244, 0x432aff97, 0xab9423a7, 0xfc93a039,
   0x655b59c3, 0x8f0ccc92, 0xffeff47d, 0x85845dd1,
   0x6fa87e4f, 0xfe2ce6e0, 0xa3014314, 0x4e0811a1,
   0xf7537e82, 0xbd3af235, 0x2ad7d2bb, 0xeb86d391]

/-- The 64 MD5 per-round left-rotation amounts. -/
def md5S : List Nat :=
  [7, 12, 17, 22, 7, 12, 17, 22, 7, 12, 17, 22, 7, 12, 17, 22,
   5, 9, 14, 20, 5, 9, 14, 20, 5, 9, 14, 20, 5, 9, 14, 20,
   4, 11, 16, 23, 4, 11, 16, 23, 4, 11, 16, 23, 4, 11, 16, 23,
   6, 10, 15, 21, 6, 10, 15, 21, 6, 10, 15, 21, 6, 10, 15, 21]

/-- Little-endian byte expansion of a natural, k bytes wide. -/
def leBytes (n k : Nat) : Bytes :=
  (List.range k).map (fun i => (n / 2 ^ (8 * i)) % 256)

/-- MD5 padding: append 0x80, zero bytes to 56 mod 64, then the bit length
as 8 little-endian bytes. -/
def md5Pad (msg : Bytes) : Bytes :=
  let len := msg.length
  let zeros := (56 + 64 - (len + 1) % 64) % 64
  msg ++ [0x80] ++ List.replicate zeros 0 ++ leBytes (8 * len) 8

/-- Take the next n 64-byte blocks off a byte string. -/
def md5BlocksGo : Nat → Bytes → List Bytes
  | 0, _ => []
  | n + 1, bs => bs.take 64 :: md5BlocksGo n (bs.drop 64)

/-- Split a padded message (whose length is a multiple of 64) into its
64-byte blocks. -/
def md5Blocks (bs : Bytes) : List Bytes := md5BlocksGo (bs.length / 64) bs

/-- The 16 little-endian 32-bit words of one 64-byte block. -/
def blockWords (block : Bytes) : List Nat :=
  (List.range 16).map (fun j =>
    block.getD (4 * j) 0 + 256 * block.getD (4 * j + 1) 0 +
    65536 * block.getD (4 * j + 2) 0 + 16777216 * block.getD (4 * j + 3) 0)

/-- One of the 64 MD5 rounds acting on the four-word working state. -/
def md5Round (M : List Nat) (st : Nat × Nat × Nat × Nat) (i : Nat) :
    Nat × Nat × Nat × Nat :=
  let a := st.1
  let b := st.2.1
  let c := st.2.2.1
  let d := st.2.2.2
  let fg : Nat × Nat :=
    if i < 16 then ((b &&& c) ||| (wnot b &&& d), i)
    else if i < 32 then ((d &&& b) ||| (wnot d &&& c), (5 * i + 1) % 16)
    else if i < 48 then (b ^^^ c ^^^ d, (3 * i + 5) % 16)
    else (c ^^^ (b ||| wnot d), (7 * i) % 16)
  let f := w32 (fg.1 + a + md5K.getD i 0 + M.getD fg.2 0)
  (d, wadd b (rotl f (md5S.getD i 0)), b, c)

/-- Process one 64-byte block, updating the running digest state. -/
def md5Block (st : Nat × Nat × Nat × Nat) (block : Bytes) :
    Nat × Nat × Nat × Nat :=
  let M := blockWords block
  let r := (List.range 64).foldl (md5Round M) st
  (wadd st.1 r.1, wadd st.2.1 r.2.1, wadd st.2.2.1 r.2.2.1,
   wadd st.2.2.2 r.2.2.2)

/-- The raw 16-byte MD5 digest of a byte string. -/
def md5Bytes (msg : Bytes) : Bytes :=
  let st := (md5Blocks (md5Pad msg)).foldl md5Block
    (0x67452301, 0xefcdab89, 0x98badcfe, 0x10325476)
  leBytes st.1 4 ++ leBytes st.2.1 4 ++ leBytes st.2.2.1 4 ++ leBytes st.2.2.2 4

/-- Lower-case hexadecimal digit. -/
def hexDigit (n : Nat) : Char :=
  if n < 10 then Char.ofNat (48 + n) else Char.ofNat (87 + n)

/-- Lower-case hexadecimal rendering of a byte string. -/
def toHex (bs : Bytes) : String :=
  String.mk (bs.flatMap (fun b => [hexDigit (b / 16), hexDigit (b % 16)]))

/-- Embedding of hashlib.md5(msg).hexdigest(): the 32-character lower-case
hexadecimal MD5 digest. -/
def md5Hex (msg : Bytes) : String := toHex (md5Bytes msg)

/-- UTF-8 encoding of one character, as in Python str.encode(). -/
def utf8Char (c : Char) : Bytes :=
  let n := c.toNat
  if n < 0x80 then [n]
  else if n < 0x800 then
    [0xc0 ||| (n / 64), 0x80 ||| (n % 64)]
  else if n < 0x10000 then
    [0xe0 ||| (n / 4096), 0x80 ||| ((n / 64) % 64), 0x80 ||| (n % 64)]
  else
    [0xf0 ||| (n / 262144), 0x80 ||| ((n / 4096) % 64),
     0x80 ||| ((n / 64) % 64), 0x80 ||| (n % 64)]

/-- UTF-8 bytes of a string, as produced by Python str.encode(). -/
def strBytes (s : String) : Bytes := s.data.flatMap utf8Char

/-- Embedding of calculate_image_hash (02_fetch_creatives.py line 49,
duplicated in 03_upload_images.py, 03_upload_r2.py, 04_write_sheets.py):
the MD5 hex digest of the raw image bytes. -/
def calculate_image_hash (image_bytes : Bytes) : String := md5Hex image_bytes

/-! ## Data model: raw creatives as persisted in the raw-record JSON files -/

/-- The ad_text field of a raw creative can be absent, a plain string, or a
list of strings (01_collect_ads.py line 167 stores either form). -/
inductive AdText
  | missing
  | str (s : String)
  | arr (l : List String)
deriving DecidableEq, Repr

/-- One RawCreative as stored in a raw JSON file (see 01_collect_ads.py
parse_ad_container and save_raw_data).  Optional fields model dict keys that
may be absent. -/
structure Ad where
  page_name : Option String := none
  image_urls : List String := []
  video_urls : List String := []
  ad_text : AdText := .missing
  ad_snapshot_url : Option String := none
  landing_url : Option String := none
  collected_at : Option String := none
  permanent_image_url : Option String := none
  r2_image_url : Option String := none
deriving DecidableEq, Repr

/-- Python set.add on the insertion-ordered view of a set of strings. -/
def setAdd (s : List String) (x : String) : List String :=
  if s.contains x then s else s ++ [x]

/-- Keep alphanumeric characters, replace the rest by underscores, and cut to
20 characters, as the filename sanitizers in 02/03 do. -/
def safe_page_name (page_name : String) : String :=
  String.mk ((page_name.data.map (fun c => if c.isAlphanum then c else '_')).take 20)

/-! ## Embedding of 02_fetch_creatives.py fetch_creatives_from_raw

The HTTP download is an oracle returning the bytes that requests.get would
produce (none on failure), and PIL open/save is an oracle saying whether the
bytes decode and save without an exception.  The IMAGES_DIR directory listing
is carried explicitly as the list of filenames present. -/

inductive FetchStatus
  | success
  | existsOnDisk
  | failed
deriving DecidableEq, Repr

/-- One entry of the results list built by fetch_creatives_from_raw. -/
structure FetchResult where
  ad_index : Nat
  page_name : String
  image_url : String
  image_hash : Option String
  status : FetchStatus
deriving DecidableEq, Repr

/-- Loop state of fetch_creatives_from_raw: the results list, the in-run
seen-hash set, the files present in IMAGES_DIR, the skipped counter, and the
URLs downloaded so far. -/
structure FetchState where
  results : List FetchResult := []
  seen_hashes : List String := []
  files : List String := []
  skipped : Nat := 0
  downloads : List String := []
deriving DecidableEq, Repr

/-- The body of the per-ad loop of fetch_creatives_from_raw
(02_fetch_creatives.py lines 78-152). -/
def fetchStep (skip_duplicates : Bool) (today : String)
    (download : String → Option Bytes) (pil_save_ok : Bytes → Bool)
    (st : FetchState) (i : Nat) (ad : Ad) : FetchState :=
  let page_name := ad.page_name.getD "unknown"
  match ad.image_urls with
  | [] => st
  | image_url :: _ =>
    let st := { st with downloads := st.downloads ++ [image_url] }
    match download image_url with
    | none =>
      { st with results := st.results ++
          [{ ad_index := i, page_name := page_name, image_url := image_url,
             image_hash := none, status := .failed }] }
    | some image_bytes =>
      let image_hash := calculate_image_hash image_bytes
      if skip_duplicates && st.seen_hashes.contains image_hash then
        { st with skipped := st.skipped + 1 }
      else
        let st := { st with seen_hashes := setAdd st.seen_hashes image_hash }
        let filename := today ++ "_" ++ safe_page_name page_name ++ "_" ++
          image_hash.take 8 ++ ".png"
        if st.files.contains filename then
          { st with results := st.results ++
              [{ ad_index := i, page_name := page_name, image_url := image_url,
                 image_hash := some image_hash, status := .existsOnDisk }] }
        else if pil_save_ok image_bytes then
          { st with files := st.files ++ [filename],
                    results := st.results ++
              [{ ad_index := i, page_name := page_name, image_url := image_url,
                 image_hash := some image_hash, status := .success }] }
        else
          { st with results := st.results ++
              [{ ad_index := i, page_name := page_name, image_url := image_url,
                 image_hash := some image_hash, status := .failed }] }

/-- fetch_creatives_from_raw (02_fetch_creatives.py lines 54-160): fold the
per-ad step over the enumerated ads of the raw file, starting from an empty
seen-hash set and the current IMAGES_DIR contents. -/
def fetch_creatives_from_raw (skip_duplicates : Bool) (today : String)
    (download : String → Option Bytes) (pil_save_ok : Bytes → Bool)
    (files0 : List String) (ads : List Ad) : FetchState :=
  ads.enum.foldl
    (fun st p => fetchStep skip_duplicates today download pil_save_ok st p.1 p.2)
    { files := files0 }

/-! ## Embedding of 03_upload_images.py process_raw_file_with_imgbb

Every observable side effect of the loop is recorded in an event trace:
HTTP downloads, imgbb uploads, the durable hash-log write and the raw-file
rewrite.  The durable hash-log file content at any point of the run is
recovered from the trace by hashLogAfter. -/

/-- Observable side effects of the sink modules. -/
inductive Ev
  | download (url : String)
  | imgbbUpload (name : String)
  | hashLogWrite (hashes : List String)
  | rawFileWrite
  | r2Put (filename : String)
  | r2Head (filename : String)
  | dbUpsert (keyword : String) (image_url : String)
deriving DecidableEq, Repr

/-- Loop state of process_raw_file_with_imgbb. -/
structure ImgbbState where
  seen_hashes : List String := []
  uploaded : Nat := 0
  skipped : Nat := 0
  failed : Nat := 0
  ads : List Ad := []
  events : List Ev := []
deriving DecidableEq, Repr

/-- The summary dict returned by process_raw_file_with_imgbb. -/
structure ImgbbSummary where
  uploaded : Nat
  skipped : Nat
  failed : Nat
  total : Nat
deriving DecidableEq, Repr

/-- The body of the per-ad loop of process_raw_file_with_imgbb
(03_upload_images.py lines 120-160). -/
def imgbbStep (skip_duplicates : Bool)
    (download : String → Option Bytes)
    (imgbb_upload : Bytes → String → Option String)
    (st : ImgbbState) (ad : Ad) : ImgbbState :=
  match ad.image_urls with
  | [] => { st with ads := st.ads ++ [ad] }
  | image_url :: _ =>
    if ad.permanent_image_url.isSome then
      { st with skipped := st.skipped + 1, ads := st.ads ++ [ad] }
    else
      let st := { st with events := st.events ++ [Ev.download image_url] }
      match download image_url with
      | none => { st with failed := st.failed + 1, ads := st.ads ++ [ad] }
      | some image_bytes =>
        let image_hash := calculate_image_hash image_bytes
        if skip_duplicates && st.seen_hashes.contains image_hash then
          { st with skipped := st.skipped + 1, ads := st.ads ++ [ad] }
        else
          let st := { st with seen_hashes := setAdd st.seen_hashes image_hash }
          let name := safe_page_name (ad.page_name.getD "unknown") ++ "_" ++
            image_hash.take 8
          let st := { st with events := st.events ++ [Ev.imgbbUpload name] }
          match imgbb_upload image_bytes name with
          | some permanent_url =>
            { st with uploaded := st.uploaded + 1,
                      ads := st.ads ++
                        [{ ad with permanent_image_url := some permanent_url }] }
          | none => { st with failed := st.failed + 1, ads := st.ads ++ [ad] }

/-- process_raw_file_with_imgbb (03_upload_images.py lines 86-182): seed the
seen-hash set from the durable hash-log file read once at the start, fold the
per-ad step, then write the hash log (wholesale) and the updated raw file. -/
def process_raw_file_with_imgbb (skip_duplicates : Bool)
    (download : String → Option Bytes)
    (imgbb_upload : Bytes → String → Option String)
    (init_hashes : List String) (ads : List Ad) : ImgbbState × ImgbbSummary :=
  let st0 : ImgbbState := { seen_hashes := if skip_duplicates then init_hashes else [] }
  let st := ads.foldl (imgbbStep skip_duplicates download imgbb_upload) st0
  let st := if skip_duplicates && !st.seen_hashes.isEmpty then
      { st with events := st.events ++ [Ev.hashLogWrite st.seen_hashes] }
    else st
  let st := { st with events := st.events ++ [Ev.rawFileWrite] }
  (st, { uploaded := st.uploaded, skipped := st.skipped, failed := st.failed,
         total := ads.length })

/-- Content of the durable hash-log file after a trace of events, starting
from its content at the beginning of the run. -/
def hashLogAfter (init : List String) (evs : List Ev) : List String :=
  evs.foldl (fun cur e => match e with | .hashLogWrite hs => hs | _ => cur) init

/-! ## Embedding of 03_upload_r2.py process_raw_file_to_r2 -/

/-- Loop state of process_raw_file_to_r2. -/
structure R2State where
  seen_hashes : List String := []
  uploaded : Nat := 0
  skipped : Nat := 0
  failed : Nat := 0
  ads : List Ad := []
  events : List Ev := []
deriving DecidableEq, Repr

/-- The body of the per-ad loop of process_raw_file_to_r2
(03_upload_r2.py lines 158-209). -/
def r2Step (skip_duplicates : Bool) (today : String) (public_url : String)
    (download : String → Option Bytes)
    (r2_put_ok : Bytes → String → Bool)
    (r2_exists : String → Bool)
    (st : R2State) (ad : Ad) : R2State :=
  match ad.image_urls with
  | [] => { st with ads := st.ads ++ [ad] }
  | image_url :: _ =>
    if ad.r2_image_url.isSome then
      { st with skipped := st.skipped + 1, ads := st.ads ++ [ad] }
    else
      let st := { st with events := st.events ++ [Ev.download image_url] }
      match download image_url with
      | none => { st with failed := st.failed + 1, ads := st.ads ++ [ad] }
      | some image_bytes =>
        let image_hash := calculate_image_hash image_bytes
        if skip_duplicates && st.seen_hashes.contains image_hash then
          let filename := today ++ "_" ++ image_hash.take 8 ++ ".png"
          { st with skipped := st.skipped + 1,
                    ads := st.ads ++
                      [{ ad with r2_image_url := some (public_url ++ "/" ++ filename) }] }
        else
          let st := { st with seen_hashes := setAdd st.seen_hashes image_hash }
          let filename := today ++ "_" ++ safe_page_name (ad.page_name.getD "unknown") ++
            "_" ++ image_hash.take 8 ++ ".png"
          let st := { st with events := st.events ++ [Ev.r2Head filename] }
          if r2_exists filename then
            { st with skipped := st.skipped + 1,
                      ads := st.ads ++
                        [{ ad with r2_image_url := some (public_url ++ "/" ++ filename) }] }
          else
            let st := { st with events := st.events ++ [Ev.r2Put filename] }
            if r2_put_ok image_bytes filename then
              { st with uploaded := st.uploaded + 1,
                        ads := st.ads ++
                          [{ ad with r2_image_url := some (public_url ++ "/" ++ filename) }] }
            else
              { st with failed := st.failed + 1, ads := st.ads ++ [ad] }

/-- process_raw_file_to_r2 (03_upload_r2.py lines 122-231): same structure as
the imgbb variant, with the R2 existence check before upload. -/
def process_raw_file_to_r2 (skip_duplicates : Bool) (today : String)
    (public_url : String)
    (download : String → Option Bytes)
    (r2_put_ok : Bytes → String → Bool)
    (r2_exists : String → Bool)
    (init_hashes : List String) (ads : List Ad) : R2State :=
  let st0 : R2State := { seen_hashes := if skip_duplicates then init_hashes else [] }
  let st := ads.foldl
    (r2Step skip_duplicates today public_url download r2_put_ok r2_exists) st0
  let st := if skip_duplicates && !st.seen_hashes.isEmpty then
      { st with events := st.events ++ [Ev.hashLogWrite st.seen_hashes] }
    else st
  { st with events := st.events ++ [Ev.rawFileWrite] }

/-! ## Embedding of 07_run_weekly.py save_ads_to_supabase

The Supabase table is carried as an explicit list of rows; the client's
upsert with conflict target keyword,image_url is modelled as merge-on-key. -/

/-- One row of the ads table as built in save_ads_to_supabase
(07_run_weekly.py lines 76-84). -/
structure DbRow where
  keyword : String
  page_name : String
  ad_text : List String
  image_url : String
  permanent_image_url : Option String
  landing_url : Option String
  collected_at : String
deriving DecidableEq, Repr

/-- Does a row match the composite conflict key keyword,image_url? -/
def rowKeyMatches (r : DbRow) (keyword image_url : String) : Bool :=
  r.keyword == keyword && r.image_url == image_url

/-- Modelled from the spec: the relational sink's upsert with conflict target
keyword,image_url merges on the composite key instead of inserting a second
row or failing.  The PostgREST upsert itself is an external collaborator; the
repository code (07_run_weekly.py lines 87-90) only issues the call with
on_conflict set to keyword,image_url. -/
def upsertRow (table : List DbRow) (r : DbRow) : List DbRow :=
  if table.any (fun q => rowKeyMatches q r.keyword r.image_url) then
    table.map (fun q => if rowKeyMatches q r.keyword r.image_url then r else q)
  else
    table ++ [r]

/-- Normalization of the ad_text field to a PostgreSQL array
(07_run_weekly.py lines 72-74). -/
def adTextToArray : AdText → List String
  | .missing => []
  | .str s => if s = "" then [] else [s]
  | .arr l => l

/-- State of the save_ads_to_supabase loop: the table contents, the saved and
skipped counters, and the upsert events issued. -/
structure DbState where
  table : List DbRow
  saved : Nat := 0
  skipped : Nat := 0
  events : List Ev := []
deriving DecidableEq, Repr

/-- The body of the per-ad loop of save_ads_to_supabase
(07_run_weekly.py lines 61-99).  ads_with_urls is the mapping from first
image URL to permanent URL read from the raw file. -/
def saveAdStep (query : String) (now : String)
    (ads_with_urls : String → Option String)
    (st : DbState) (ad : Ad) : DbState :=
  match ad.image_urls with
  | [] => { st with skipped := st.skipped + 1 }
  | image_url :: _ =>
    let permanent_url :=
      match ads_with_urls image_url with
      | some u => some u
      | none => ad.permanent_image_url
    let row : DbRow :=
      { keyword := query,
        page_name := ad.page_name.getD "Unknown",
        ad_text := adTextToArray ad.ad_text,
        image_url := image_url,
        permanent_image_url := permanent_url,
        landing_url := ad.landing_url,
        collected_at := ad.collected_at.getD now }
    { st with table := upsertRow st.table row,
              saved := st.saved + 1,
              events := st.events ++ [Ev.dbUpsert query image_url] }

/-- save_ads_to_supabase (07_run_weekly.py lines 40-102): when the client is
unavailable the function returns at once and touches no row; otherwise every
ad is run through the per-ad step. -/
def save_ads_to_supabase (client_available : Bool) (query : String)
    (now : String) (ads_with_urls : String → Option String)
    (table : List DbRow) (ads : List Ad) : DbState :=
  if client_available then
    ads.foldl (saveAdStep query now ads_with_urls) { table := table }
  else
    { table := table }

/-- Number of table rows matching a composite key. -/
def countKey (table : List DbRow) (keyword image_url : String) : Nat :=
  (table.filter (fun q => rowKeyMatches q keyword image_url)).length

/-! ## Embedding of 04_write_sheets.py write_ads_by_keyword (row building)

Only the deduplicating row-construction loop is modelled (lines 270-335); the
gspread calls around it are external.  The OCR text extractor is an oracle. -/

/-- The fingerprint recorded in a sheet row: the MD5 of the downloaded bytes,
or - when the download failed - the MD5 of the UTF-8 encoded URL
(04_write_sheets.py lines 297-306). -/
def sheetImageHash (image_bytes : Option Bytes) (image_url : String) : String :=
  match image_bytes with
  | some b => calculate_image_hash b
  | none => md5Hex (strBytes image_url)

/-- One sheet row as assembled at 04_write_sheets.py lines 325-334. -/
structure SheetRow where
  collected_at : String
  page_name : String
  ad_text : String
  image_cell : String
  image_text : String
  video_url : String
  ad_snapshot_url : String
  image_hash : String
deriving DecidableEq, Repr

/-- Loop state of the row-construction loop of write_ads_by_keyword. -/
structure SheetsState where
  rows : List SheetRow := []
  existing_hashes : List String := []
  skipped : Nat := 0
  no_image : Nat := 0
  events : List Ev := []
deriving DecidableEq, Repr

/-- ad_text flattening in the sheets writer (lines 278-281). -/
def adTextJoin : AdText → String
  | .missing => ""
  | .str s => s
  | .arr l => String.intercalate "\n" l

/-- The body of the per-ad loop of write_ads_by_keyword
(04_write_sheets.py lines 276-335). -/
def sheetsStep (skip_duplicates : Bool) (collected_at : String)
    (download : String → Option Bytes)
    (ocr : Bytes → String)
    (drive_url_map : String → Option String)
    (st : SheetsState) (ad : Ad) : SheetsState :=
  match ad.image_urls with
  | [] => { st with no_image := st.no_image + 1 }
  | image_url :: _ =>
    let st := { st with events := st.events ++ [Ev.download image_url] }
    let image_bytes := download image_url
    let image_hash := sheetImageHash image_bytes image_url
    let image_text := match image_bytes with
      | some b => ocr b
      | none => ""
    if skip_duplicates && st.existing_hashes.contains image_hash then
      { st with skipped := st.skipped + 1 }
    else
      let st := { st with existing_hashes := setAdd st.existing_hashes image_hash }
      let image_cell := match drive_url_map image_hash with
        | some u =>
          if u = "" then "=IMAGE(\"" ++ image_url ++ "\")"
          else "=IMAGE(\"" ++ u ++ "\")"
        | none => "=IMAGE(\"" ++ image_url ++ "\")"
      { st with rows := st.rows ++
          [{ collected_at := collected_at,
             page_name := ad.page_name.getD "",
             ad_text := adTextJoin ad.ad_text,
             image_cell := image_cell,
             image_text := image_text,
             video_url := ad.video_urls.headD "",
             ad_snapshot_url := ad.ad_snapshot_url.getD "",
             image_hash := image_hash }] }

/-- The row-construction phase of write_ads_by_keyword: fold the per-ad step
over the ads, starting from the hashes already present in the worksheet. -/
def write_ads_by_keyword (skip_duplicates : Bool) (collected_at : String)
    (download : String → Option Bytes) (ocr : Bytes → String)
    (drive_url_map : String → Option String)
    (existing0 : List String) (ads : List Ad) : SheetsState :=
  ads.foldl (sheetsStep skip_duplicates collected_at download ocr drive_url_map)
    { existing_hashes := if skip_duplicates then existing0 else [] }

/-! ## Embedding of 01_collect_ads.py scroll_and_load_ads and extract_ad_data

The page is an oracle: counts n is the number of ad cards the n-th
query_selector_all round would observe.  The loop returns the last observed
count together with the number of observation rounds performed. -/

/-- The while-loop of scroll_and_load_ads (01_collect_ads.py lines 79-111),
with fuel = max_scrolls - scroll_count.  State: the previous count, the
no_change_count, and the index of the next observation.  Returns the value of
current_count on exit and the number of observations made. -/
def scrollGo (counts : Nat → Nat) (target_count : Nat) :
    Nat → Nat → Nat → Nat → Nat × Nat
  | 0, previous, _, obs => (previous, obs)
  | fuel + 1, previous, no_change, obs =>
    let current := counts obs
    if target_count ≤ current then (current, obs + 1)
    else if current = previous ∧ no_change + 1 ≥ 3 then (current, obs + 1)
    else
      let no_change := if current = previous then no_change + 1 else 0
      scrollGo counts target_count fuel current no_change (obs + 1)

/-- scroll_and_load_ads (01_collect_ads.py lines 73-112): scroll until the
target count is reached, the count stalls three times in a row, or max_scrolls
scrolls have been performed. -/
def scroll_and_load_ads (counts : Nat → Nat) (target_count : Nat)
    (max_scrolls : Nat) : Nat × Nat :=
  scrollGo counts target_count max_scrolls 0 0 0

/-- Outcome of parsing one ad container: parse_ad_container either raises
(error), returns None, or returns the parsed record. -/
abbrev ParseOutcome (β : Type) := Except Unit (Option β)

/-- extract_ad_data (01_collect_ads.py lines 115-142): iterate over the first
limit containers; a parse exception or a None result drops only that
container. -/
def extract_ad_data {α β : Type} (parse : α → ParseOutcome β)
    (containers : List α) (limit : Nat) : List β :=
  (containers.take limit).foldl
    (fun ads c =>
      match parse c with
      | .ok (some ad) => ads ++ [ad]
      | .ok none => ads
      | .error _ => ads)
    []

/-! ## Embedding of 07_run_weekly.py run_full_pipeline (stage sequencing)

The sequencing of the three stages is modelled together with the keyword
binding of the Step 1 call: run_full_pipeline invokes collect_ads_playwright
with a fixed set of keyword arguments, and Python raises TypeError at the call
when one of them is not a parameter of the callee.  There is no try around
Step 1, so that exception propagates out of run_full_pipeline. -/

/-- The three stages of run_full_pipeline. -/
inductive PStep
  | collect
  | imgbbUploadStage
  | supabaseStage
deriving DecidableEq, Repr

/-- Parameter names of collect_ads_playwright (01_collect_ads.py lines
220-226): query, country, limit, headless, active_only - there is no
image_only parameter. -/
def collect_ads_playwright_params : List String :=
  ["query", "country", "limit", "headless", "active_only"]

/-- Keyword arguments of the collect_ads_playwright call inside
run_full_pipeline (07_run_weekly.py lines 133-139). -/
def collect_call_kwargs : List String :=
  ["query", "country", "limit", "headless", "image_only"]

/-- Parameter names of run_full_pipeline itself (07_run_weekly.py lines
105-112). -/
def run_full_pipeline_params : List String :=
  ["query", "country", "limit", "headless", "image_only", "skip_upload"]

/-- Keyword arguments of the run_full_pipeline call inside
run_scheduled_collection (08_scheduler.py lines 129-138). -/
def scheduler_call_kwargs : List String :=
  ["query", "country", "limit", "headless", "image_only", "skip_download",
   "skip_upload", "skip_sheets"]

/-- Python keyword binding for a function without a **kwargs parameter: the
call binds exactly when every keyword argument names a parameter; otherwise
the call raises TypeError (unexpected keyword argument). -/
def kwargsBind (params kwargs : List String) : Bool :=
  kwargs.all (fun k => params.contains k)

/-- run_full_pipeline (07_run_weekly.py lines 105-177).  Step 1 calls
collect_ads_playwright with the keyword arguments of collect_call_kwargs;
when that call does not bind, the TypeError propagates out of
run_full_pipeline (there is no try around Step 1), no stage runs, and error
models the uncaught exception.  Were the call to bind, the function would
abort on an empty collection, upload to imgbb only when not skipped and the
API key is configured, and always proceed to the Supabase save. -/
def run_full_pipeline (ads : List Ad) (imgbb_key : Option String)
    (skip_upload : Bool) : Except Unit (List PStep × Bool) :=
  if kwargsBind collect_ads_playwright_params collect_call_kwargs then
    let steps := [PStep.collect]
    if ads.isEmpty then .ok (steps, false)
    else
      let steps := steps ++
        (if !skip_upload && imgbb_key.isSome then [PStep.imgbbUploadStage] else [])
      let steps := steps ++ [PStep.supabaseStage]
      .ok (steps, true)
  else
    .error ()

/-! ## Embedding of 08_scheduler.py run_scheduled_collection

count_today_images reads the filesystem; the per-keyword pipeline execution is
an oracle mapping (keyword index, computed limit, current image count) to the
image count observed after the run, or to an exception.  The loop records each
invocation together with the running total at the time it was made. -/

/-- One registered keyword (data/keywords.json entry). -/
structure Keyword where
  query : String
  country : String := "KR"
  limit : Nat := 20
  enabled : Bool := true
deriving DecidableEq, Repr

/-- The per-keyword loop of run_scheduled_collection (08_scheduler.py lines
114-144).  effect idx limit total models run_full_pipeline followed by
count_today_images: it returns the new image count or an exception.  Returns
the final total and the list of (index, total at invocation) pairs. -/
def schedLoop (daily_limit : Nat) (effect : Nat → Nat → Nat → Except Unit Nat) :
    Nat → List Keyword → Nat → Nat × List (Nat × Nat)
  | _, [], total => (total, [])
  | idx, kw :: rest, total =>
    if daily_limit ≤ total then (total, [])
    else
      let remaining := daily_limit - total
      let limit := min kw.limit remaining
      match effect idx limit total with
      | .ok newCount =>
        let r := schedLoop daily_limit effect (idx + 1) rest newCount
        (r.1, (idx, total) :: r.2)
      | .error _ =>
        let r := schedLoop daily_limit effect (idx + 1) rest total
        (r.1, (idx, total) :: r.2)

/-- run_scheduled_collection (08_scheduler.py lines 86-149): filter enabled
keywords, compute already_collected from today's persisted images, return at
once when the daily limit is already reached, and otherwise run the keyword
loop. -/
def run_scheduled_collection (daily_limit : Nat) (keywords : List Keyword)
    (effect : Nat → Nat → Nat → Except Unit Nat)
    (already_collected : Nat) : Nat × List (Nat × Nat) :=
  let enabled_keywords := keywords.filter (fun kw => kw.enabled)
  if daily_limit ≤ already_collected then (already_collected, [])
  else schedLoop daily_limit effect 0 enabled_keywords already_collected

/-! ## Derived observations on traces -/

/-- The URLs downloaded during a trace of events. -/
def downloadsOf (evs : List Ev) : List String :=
  evs.filterMap (fun e => match e with | .download v => some v | _ => none)

/-! ## Concrete scenario inputs used by counterexamples and witnesses -/

/-- Download oracle of the five-record scenario of the run summary claim. -/
def scenarioDownload : String → Option Bytes
  | "u0" => some [1, 2, 3]
  | "u1" => some [1, 2, 3]
  | "u3" => some [4]
  | "u4" => some [5]
  | _ => none

/-- Five raw records: two share an identical image byte stream (u0 and u1
both resolve to the bytes 1,2,3) and one has no image URLs. -/
def scenarioAds : List Ad :=
  [{ page_name := some "P0", image_urls := ["u0"] },
   { page_name := some "P1", image_urls := ["u1"] },
   { page_name := some "P2" },
   { page_name := some "P3", image_urls := ["u3"] },
   { page_name := some "P4", image_urls := ["u4"] }]

/-- An always-successful imgbb upload oracle. -/
def scenarioUpload : Bytes → String → Option String :=
  fun _ name => some ("https://i.ibb.co/" ++ name)

/-- A record from advertiser A and a record from advertiser B whose image
URLs differ but resolve to the same bytes. -/
def adA : Ad := { page_name := some "A", image_urls := ["uA"] }

/-- See adA: same image bytes, different advertiser and URL. -/
def adB : Ad := { page_name := some "B", image_urls := ["uB"] }

/-- Download oracle resolving every URL to the same bytes 9,9. -/
def sameBytesDownload : String → Option Bytes := fun _ => some [9, 9]

/-- The card-count observations of the scroll-stall scenario: 3 on the first
query round, 5 on every later one. -/
def stallCounts : Nat → Nat := fun i => if i = 0 then 3 else 5

/-! ## Claims -/

set_option maxRecDepth 100000

/-- C3 counterexample: with observed counts 3,5,5,5,... a stall threshold of
3 and a requested limit of 10, the loop does not terminate on attempt 4: the
stall counter compares each observation to its predecessor, so after the
fourth observation only two unchanged counts have been seen and the loop
queries a fifth time. -/
theorem scroll_stall_not_attempt_four :
    ¬ scroll_and_load_ads stallCounts 10 50 = (5, 4) := by
  decide

/-- C3 amended: with observed counts 3,5,5,5,5 the scroll loop terminates on
the fifth observation round - the third consecutive round whose count equals
its predecessor - and returns the 5 loaded cards instead of continuing toward
the requested limit of 10. -/
theorem scroll_stall_returns_after_five :
    scroll_and_load_ads stallCounts 10 50 = (5, 5) := by
  decide

/-- C7 counterexample: in the 5-record scenario (two byte-identical images,
one record without image URLs) the summary of process_raw_file_with_imgbb has
outcome counters uploaded 3, skipped 1, failed 0 against total 5: the record
without media is counted in no outcome category, so the categories do not
account for all five fetched records. -/
theorem imgbb_summary_misses_no_media :
    (process_raw_file_with_imgbb true scenarioDownload scenarioUpload []
        scenarioAds).2.uploaded +
      (process_raw_file_with_imgbb true scenarioDownload scenarioUpload []
        scenarioAds).2.skipped +
      (process_raw_file_with_imgbb true scenarioDownload scenarioUpload []
        scenarioAds).2.failed ≠
    (process_raw_file_with_imgbb true scenarioDownload scenarioUpload []
        scenarioAds).2.total := by
  decide

/-- C7 amended: for the 5-record scenario the run summary is uploaded 3,
skipped 1, failed 0, total 5: the duplicate byte stream is skipped once, the
three distinct images are delivered, and the record with no image URLs is
silently dropped without an outcome category, so the outcome counters sum to
4 of the 5 fetched records. -/
theorem imgbb_scenario_summary :
    (process_raw_file_with_imgbb true scenarioDownload scenarioUpload []
        scenarioAds).2 =
      { uploaded := 3, skipped := 1, failed := 0, total := 5 } := by
  decide

/-- C2: a raw creative whose image-URL list is empty is filtered out at
admission in every sink path: the fetch loop performs no download and records
nothing, the imgbb loop only carries the ad through, the R2 loop only carries
the ad through, the Supabase loop counts it skipped without an upsert, and
the sheets loop counts it no_image without building a row. -/
theorem no_media_never_delivered
    (skip_duplicates : Bool) (today public_url query now collected_at : String)
    (download : String → Option Bytes) (pil_save_ok : Bytes → Bool)
    (imgbb_upload : Bytes → String → Option String)
    (r2_put_ok : Bytes → String → Bool) (r2_exists : String → Bool)
    (ocr : Bytes → String) (drive_url_map ads_with_urls : String → Option String)
    (stF : FetchState) (stI : ImgbbState) (stR : R2State) (stD : DbState)
    (stS : SheetsState) (i : Nat) (ad : Ad) (h : ad.image_urls = []) :
    fetchStep skip_duplicates today download pil_save_ok stF i ad = stF ∧
    imgbbStep skip_duplicates download imgbb_upload stI ad =
      { stI with ads := stI.ads ++ [ad] } ∧
    r2Step skip_duplicates today public_url download r2_put_ok r2_exists stR ad =
      { stR with ads := stR.ads ++ [ad] } ∧
    saveAdStep query now ads_with_urls stD ad =
      { stD with skipped := stD.skipped + 1 } ∧
    sheetsStep skip_duplicates collected_at download ocr drive_url_map stS ad =
      { stS with no_image := stS.no_image + 1 } := by
  refine ⟨?_, ?_, ?_, ?_, ?_⟩ <;>
    simp [fetchStep, imgbbStep, r2Step, saveAdStep, sheetsStep, h]

/-- C2 witness: the step equations at a concrete creative with an empty
image-URL list, concrete oracles and the empty loop states. -/
theorem no_media_never_delivered_witness :
    fetchStep true "20250101" (fun _ => none) (fun _ => true)
      { } 0 { page_name := some "X" } = { } ∧
    imgbbStep true (fun _ => none) (fun _ _ => none)
      { } { page_name := some "X" } =
      { ({ } : ImgbbState) with ads := ({ } : ImgbbState).ads ++ [{ page_name := some "X" }] } ∧
    r2Step true "20250101" "https://pub" (fun _ => none) (fun _ _ => false)
      (fun _ => false) { } { page_name := some "X" } =
      { ({ } : R2State) with ads := ({ } : R2State).ads ++ [{ page_name := some "X" }] } ∧
    saveAdStep "kw" "now" (fun _ => none)
      { table := [] } { page_name := some "X" } =
      { ({ table := [] } : DbState) with skipped := ({ table := [] } : DbState).skipped + 1 } ∧
    sheetsStep true "2025-01-01" (fun _ => none) (fun _ => "") (fun _ => none)
      { } { page_name := some "X" } =
      { ({ } : SheetsState) with no_image := ({ } : SheetsState).no_image + 1 } :=
  no_media_never_delivered true "20250101" "https://pub" "kw" "now" "2025-01-01"
    (fun _ => none) (fun _ => true) (fun _ _ => none) (fun _ _ => false)
    (fun _ => false) (fun _ => "") (fun _ => none) (fun _ => none)
    { } { } { } { table := [] } { } 0 { page_name := some "X" } rfl

/-- C10: for a creative with a non-empty image-URL list every download
performed by any of the four per-record sink loops targets the first URL of
the list, every result the fetch loop records references the first URL, and
the relational upsert is keyed on the first URL; the remaining candidate URLs
are never fetched. -/
theorem first_url_only
    (skip_duplicates : Bool) (today public_url query now collected_at : String)
    (download : String → Option Bytes) (pil_save_ok : Bytes → Bool)
    (imgbb_upload : Bytes → String → Option String)
    (r2_put_ok : Bytes → String → Bool) (r2_exists : String → Bool)
    (ocr : Bytes → String) (drive_url_map ads_with_urls : String → Option String)
    (stF : FetchState) (stI : ImgbbState) (stR : R2State) (stD : DbState)
    (stS : SheetsState) (i : Nat) (ad : Ad) (u : String) (rest : List String)
    (h : ad.image_urls = u :: rest) :
    (fetchStep skip_duplicates today download pil_save_ok stF i ad).downloads =
      stF.downloads ++ [u] ∧
    (∀ r ∈ (fetchStep skip_duplicates today download pil_save_ok stF i ad).results,
      r ∈ stF.results ∨ r.image_url = u) ∧
    (downloadsOf (imgbbStep skip_duplicates download imgbb_upload stI ad).events =
        downloadsOf stI.events ∨
     downloadsOf (imgbbStep skip_duplicates download imgbb_upload stI ad).events =
        downloadsOf stI.events ++ [u]) ∧
    (downloadsOf (r2Step skip_duplicates today public_url download r2_put_ok
        r2_exists stR ad).events = downloadsOf stR.events ∨
     downloadsOf (r2Step skip_duplicates today public_url download r2_put_ok
        r2_exists stR ad).events = downloadsOf stR.events ++ [u]) ∧
    (saveAdStep query now ads_with_urls stD ad).events =
      stD.events ++ [Ev.dbUpsert query u] ∧
    downloadsOf (sheetsStep skip_duplicates collected_at download ocr
        drive_url_map stS ad).events = downloadsOf stS.events ++ [u] := by
  refine ⟨?_, ?_, ?_, ?_, ?_, ?_⟩
  · simp only [fetchStep, h]
    cases hdl : download u <;> simp [hdl]
    split
    · rfl
    · split
      · rfl
      · split <;> rfl
  · simp only [fetchStep, h]
    cases hdl : download u <;> simp only [hdl] <;>
      (repeat' split) <;> intro r hr <;>
      first
        | exact Or.inl hr
        | (simp only [List.mem_append, List.mem_singleton] at hr
           rcases hr with h1 | h1
           · exact Or.inl h1
           · exact Or.inr (by rw [h1]))
  · simp only [imgbbStep, h]
    split
    · exact Or.inl rfl
    · cases hdl : download u <;> simp only [hdl]
      · right; simp [downloadsOf]
      · split
        · right; simp [downloadsOf]
        · split
          · right; simp [downloadsOf]
          · right; simp [downloadsOf]
  · simp only [r2Step, h]
    split
    · exact Or.inl rfl
    · cases hdl : download u <;> simp only [hdl]
      · right; simp [downloadsOf]
      · split
        · right; simp [downloadsOf]
        · split
          · right; simp [downloadsOf]
          · split
            · right; simp [downloadsOf]
            · right; simp [downloadsOf]
  · simp [saveAdStep, h]
  · simp only [sheetsStep, h]
    split
    · simp [downloadsOf]
    · simp [downloadsOf]

/-- C10 witness: the conclusions at a creative with two candidate image URLs,
concrete oracles and empty loop states. -/
theorem first_url_only_witness :
    (fetchStep true "20250101" (fun _ => some [7]) (fun _ => true)
      { } 0 { image_urls := ["v", "w"] }).downloads = [] ++ ["v"] ∧
    (∀ r ∈ (fetchStep true "20250101" (fun _ => some [7]) (fun _ => true)
      { } 0 { image_urls := ["v", "w"] }).results, r ∈ ([] : List FetchResult) ∨ r.image_url = "v") ∧
    (downloadsOf (imgbbStep true (fun _ => some [7]) (fun _ _ => none)
      { } { image_urls := ["v", "w"] }).events = downloadsOf [] ∨
     downloadsOf (imgbbStep true (fun _ => some [7]) (fun _ _ => none)
      { } { image_urls := ["v", "w"] }).events = downloadsOf [] ++ ["v"]) ∧
    (downloadsOf (r2Step true "20250101" "https://pub" (fun _ => some [7])
      (fun _ _ => false) (fun _ => false) { } { image_urls := ["v", "w"] }).events =
        downloadsOf [] ∨
     downloadsOf (r2Step true "20250101" "https://pub" (fun _ => some [7])
      (fun _ _ => false) (fun _ => false) { } { image_urls := ["v", "w"] }).events =
        downloadsOf [] ++ ["v"]) ∧
    (saveAdStep "kw" "now" (fun _ => none) { table := [] }
      { image_urls := ["v", "w"] }).events = [] ++ [Ev.dbUpsert "kw" "v"] ∧
    downloadsOf (sheetsStep true "2025-01-01" (fun _ => some [7]) (fun _ => "")
      (fun _ => none) { } { image_urls := ["v", "w"] }).events =
      downloadsOf [] ++ ["v"] :=
  first_url_only true "20250101" "https://pub" "kw" "now" "2025-01-01"
    (fun _ => some [7]) (fun _ => true) (fun _ _ => none) (fun _ _ => false)
    (fun _ => false) (fun _ => "") (fun _ => none) (fun _ => none)
    { } { } { } { table := [] } { } 0 { image_urls := ["v", "w"] } "v" ["w"] rfl

/-- A record whose only image URL is the two-letter string ua. -/
def adUa : Ad := { page_name := some "A", image_urls := ["ua"] }

/-- A record whose only image URL is the two-letter string ub. -/
def adUb : Ad := { page_name := some "B", image_urls := ["ub"] }

/-- C4 counterexample: in the sheets path, when the image download fails the
recorded fingerprint is the MD5 of the UTF-8 encoded URL string; two records
with identical (absent) image content but different URLs receive different
fingerprints, so the fingerprint is computed from the URL on that path. -/
theorem sheet_hash_from_url_counterexample :
    (write_ads_by_keyword true "2025-01-01" (fun _ => none) (fun _ => "")
        (fun _ => none) [] [adUa, adUb]).rows.map SheetRow.image_hash =
      [md5Hex (strBytes "ua"), md5Hex (strBytes "ub")] ∧
    md5Hex (strBytes "ua") ≠ md5Hex (strBytes "ub") := by
  decide

/-- C4 amended: the fingerprint used for deduplication is the MD5 of the raw
downloaded bytes whenever the download succeeds - independent of the URL -
but in the sheets path a failed download falls back to the MD5 of the UTF-8
encoded URL string, and every row the sheets loop appends carries exactly
that per-record fingerprint. -/
theorem sheet_hash_fallback_amended
    (skip_duplicates : Bool) (collected_at : String)
    (download : String → Option Bytes) (ocr : Bytes → String)
    (drive_url_map : String → Option String) (st : SheetsState)
    (ad : Ad) (u : String) (rest : List String) (b : Bytes)
    (h : ad.image_urls = u :: rest) :
    sheetImageHash (some b) u = calculate_image_hash b ∧
    sheetImageHash none u = md5Hex (strBytes u) ∧
    ∀ r ∈ (sheetsStep skip_duplicates collected_at download ocr drive_url_map
        st ad).rows,
      r ∈ st.rows ∨ r.image_hash = sheetImageHash (download u) u := by
  refine ⟨rfl, rfl, ?_⟩
  simp only [sheetsStep, h]
  (repeat' split) <;> intro r hr <;>
    first
      | exact Or.inl hr
      | (simp only [List.mem_append, List.mem_singleton] at hr
         rcases hr with h1 | h1
         · exact Or.inl h1
         · exact Or.inr (by rw [h1]))

/-- C4 amended witness: the conclusions at a concrete record whose download
fails, with empty loop state. -/
theorem sheet_hash_fallback_amended_witness :
    sheetImageHash (some [7]) "ua" = calculate_image_hash [7] ∧
    sheetImageHash none "ua" = md5Hex (strBytes "ua") ∧
    ∀ r ∈ (sheetsStep true "2025-01-01" (fun _ => none) (fun _ => "")
        (fun _ => none) { } adUa).rows,
      r ∈ ({ } : SheetsState).rows ∨
        r.image_hash = sheetImageHash ((fun _ => none : String → Option Bytes) "ua") "ua" :=
  sheet_hash_fallback_amended true "2025-01-01" (fun _ => none) (fun _ => "")
    (fun _ => none) { } adUa "ua" [] [7] rfl

/-- C1 counterexample: the fetch path's only cross-run protection is the
existing-file check, whose filename key includes the sanitized page name; a
run that admits the bytes 9,9 for advertiser A saves one file, and a later
run over the resulting directory admits the byte-identical image of
advertiser B again (status success, a second file saved) instead of
rejecting the digest as a duplicate. -/
theorem fetch_path_readmits_same_digest :
    (fetch_creatives_from_raw true "20250101" sameBytesDownload (fun _ => true)
        [] [adA]).results.map (fun r => (r.image_hash, r.status)) =
      [(some (calculate_image_hash [9, 9]), FetchStatus.success)] ∧
    (fetch_creatives_from_raw true "20250101" sameBytesDownload (fun _ => true)
        (fetch_creatives_from_raw true "20250101" sameBytesDownload
          (fun _ => true) [] [adA]).files
        [adB]).results.map (fun r => (r.image_hash, r.status)) =
      [(some (calculate_image_hash [9, 9]), FetchStatus.success)] ∧
    (fetch_creatives_from_raw true "20250101" sameBytesDownload (fun _ => true)
        (fetch_creatives_from_raw true "20250101" sameBytesDownload
          (fun _ => true) [] [adA]).files
        [adB]).skipped = 0 := by
  decide

/-- C1 amended: the fingerprint recorded for an admitted record is
calculate_image_hash of the downloaded bytes - a function of the bytes only,
independent of the source URL; a second admission attempt for the same digest
within one run is rejected by the in-run seen-hash set, and in the imgbb path
a digest present in the durable hash log (loaded into the seen-set once at
run start) is rejected in a later run.  The fetch path's cross-run check is
only the existing-file test keyed by date, sanitized page name and digest
prefix, so it rejects re-admission only when those coincide. -/
theorem fingerprint_dedup_amended
    (today : String) (download : String → Option Bytes)
    (pil_save_ok : Bytes → Bool) (imgbb_upload : Bytes → String → Option String)
    (stF : FetchState) (stI : ImgbbState) (i : Nat) (ad : Ad) (u : String)
    (rest : List String) (b : Bytes) (init : List String)
    (hurls : ad.image_urls = u :: rest) (hdl : download u = some b) :
    (∀ r ∈ (fetchStep true today download pil_save_ok stF i ad).results,
      r ∈ stF.results ∨ r.image_hash = some (calculate_image_hash b)) ∧
    (stF.seen_hashes.contains (calculate_image_hash b) = true →
      fetchStep true today download pil_save_ok stF i ad =
        { stF with skipped := stF.skipped + 1,
                   downloads := stF.downloads ++ [u] }) ∧
    (ad.permanent_image_url = none →
      stI.seen_hashes.contains (calculate_image_hash b) = true →
      imgbbStep true download imgbb_upload stI ad =
        { stI with skipped := stI.skipped + 1, ads := stI.ads ++ [ad],
                   events := stI.events ++ [Ev.download u] }) ∧
    (process_raw_file_with_imgbb true download imgbb_upload init []).1.seen_hashes
      = init := by
  refine ⟨?_, ?_, ?_, ?_⟩
  · simp only [fetchStep, hurls, hdl]
    (repeat' split) <;> intro r hr <;>
      first
        | exact Or.inl hr
        | (simp only [List.mem_append, List.mem_singleton] at hr
           rcases hr with h1 | h1
           · exact Or.inl h1
           · exact Or.inr (by rw [h1]))
  · intro hseen
    have hmem : calculate_image_hash b ∈ stF.seen_hashes := by simpa using hseen
    simp [fetchStep, hurls, hdl, hmem]
  · intro hperm hseen
    have hmem : calculate_image_hash b ∈ stI.seen_hashes := by simpa using hseen
    simp [imgbbStep, hurls, hdl, hmem, hperm]
  · simp [process_raw_file_with_imgbb, apply_ite ImgbbState.seen_hashes]

/-- C1 amended witness: the conclusions at a concrete record, a download
oracle returning the bytes 9,9 for its URL, and loop states whose seen-hash
sets already contain the digest of those bytes. -/
theorem fingerprint_dedup_amended_witness :
    (∀ r ∈ (fetchStep true "20250101" sameBytesDownload (fun _ => true)
        { seen_hashes := [calculate_image_hash [9, 9]] } 0 adA).results,
      r ∈ ({ seen_hashes := [calculate_image_hash [9, 9]] } : FetchState).results ∨
        r.image_hash = some (calculate_image_hash [9, 9])) ∧
    (({ seen_hashes := [calculate_image_hash [9, 9]] } :
        FetchState).seen_hashes.contains (calculate_image_hash [9, 9]) = true →
      fetchStep true "20250101" sameBytesDownload (fun _ => true)
          { seen_hashes := [calculate_image_hash [9, 9]] } 0 adA =
        { ({ seen_hashes := [calculate_image_hash [9, 9]] } : FetchState) with
            skipped := ({ seen_hashes := [calculate_image_hash [9, 9]] } :
              FetchState).skipped + 1,
            downloads := ({ seen_hashes := [calculate_image_hash [9, 9]] } :
              FetchState).downloads ++ ["uA"] }) ∧
    (adA.permanent_image_url = none →
      ({ seen_hashes := [calculate_image_hash [9, 9]] } :
        ImgbbState).seen_hashes.contains (calculate_image_hash [9, 9]) = true →
      imgbbStep true sameBytesDownload (fun _ _ => none)
          { seen_hashes := [calculate_image_hash [9, 9]] } adA =
        { ({ seen_hashes := [calculate_image_hash [9, 9]] } : ImgbbState) with
            skipped := ({ seen_hashes := [calculate_image_hash [9, 9]] } :
              ImgbbState).skipped + 1,
            ads := ({ seen_hashes := [calculate_image_hash [9, 9]] } :
              ImgbbState).ads ++ [adA],
            events := ({ seen_hashes := [calculate_image_hash [9, 9]] } :
              ImgbbState).events ++ [Ev.download "uA"] }) ∧
    (process_raw_file_with_imgbb true sameBytesDownload (fun _ _ => none)
        ["h0"] []).1.seen_hashes = ["h0"] :=
  fingerprint_dedup_amended "20250101" sameBytesDownload (fun _ => true)
    (fun _ _ => none) { seen_hashes := [calculate_image_hash [9, 9]] }
    { seen_hashes := [calculate_image_hash [9, 9]] } 0 adA "uA" [] [9, 9]
    ["h0"] rfl rfl

/-- The scheduler keyword loop never decreases the running image count when
the per-keyword effect can only add image files, and it invokes a keyword
only while the running total is below the daily limit. -/
theorem schedLoop_spec (daily_limit : Nat)
    (effect : Nat → Nat → Nat → Except Unit Nat)
    (hmono : ∀ i l c c', effect i l c = .ok c' → c ≤ c') :
    ∀ (kws : List Keyword) (idx total : Nat),
      total ≤ (schedLoop daily_limit effect idx kws total).1 ∧
      ∀ p ∈ (schedLoop daily_limit effect idx kws total).2, p.2 < daily_limit := by
  intro kws
  induction kws with
  | nil => intro idx total; simp [schedLoop]
  | cons kw rest ih =>
    intro idx total
    simp only [schedLoop]
    split
    · simp
    · rename_i hlt
      cases heff : effect idx (min kw.limit (daily_limit - total)) total with
      | ok c' =>
        simp only [heff]
        have h1 := ih (idx + 1) c'
        refine ⟨le_trans (hmono _ _ _ _ heff) h1.1, ?_⟩
        intro p hp
        simp only [List.mem_cons] at hp
        rcases hp with h2 | h2
        · rw [h2]; omega
        · exact h1.2 p h2
      | error e =>
        simp only [heff]
        have h1 := ih (idx + 1) total
        refine ⟨h1.1, ?_⟩
        intro p hp
        simp only [List.mem_cons] at hp
        rcases hp with h2 | h2
        · rw [h2]; omega
        · exact h1.2 p h2

/-- C5: when the per-keyword pipeline effect can only grow the set of today's
persisted images, the image count run_scheduled_collection reports is at
least the already-collected count it started from, and every keyword
invocation it makes happens while the running total is still strictly below
the daily limit - keywords reached after the limit are not invoked. -/
theorem quota_monotone_and_stops
    (daily_limit : Nat) (keywords : List Keyword)
    (effect : Nat → Nat → Nat → Except Unit Nat) (already_collected : Nat)
    (hmono : ∀ i l c c', effect i l c = .ok c' → c ≤ c') :
    already_collected ≤
      (run_scheduled_collection daily_limit keywords effect already_collected).1 ∧
    ∀ p ∈ (run_scheduled_collection daily_limit keywords effect
        already_collected).2, p.2 < daily_limit := by
  unfold run_scheduled_collection
  split
  · simp
  · exact schedLoop_spec daily_limit effect hmono _ 0 already_collected

/-- C5 witness: two keywords, a daily limit of 5, an already-collected count
of 3, and an effect that adds one image per run. -/
theorem quota_monotone_and_stops_witness :
    (∀ i l c c',
      (fun _ _ c => Except.ok (c + 1) : Nat → Nat → Nat → Except Unit Nat) i l c
        = .ok c' → c ≤ c') ∧
    (3 ≤ (run_scheduled_collection 5 [{ query := "k0" }, { query := "k1" }]
        (fun _ _ c => Except.ok (c + 1)) 3).1 ∧
     ∀ p ∈ (run_scheduled_collection 5 [{ query := "k0" }, { query := "k1" }]
        (fun _ _ c => Except.ok (c + 1)) 3).2, p.2 < 5) :=
  ⟨fun _ _ c c' h => by injection h with h; omega,
   quota_monotone_and_stops 5 [{ query := "k0" }, { query := "k1" }]
     (fun _ _ c => Except.ok (c + 1)) 3
     (fun _ _ c c' h => by injection h with h; omega)⟩

/-- C6: the per-record and per-keyword halves of the claim hold of the code -
a parse exception on container 3 of 10 drops only that container and
containers 4-10 are still extracted, and a pipeline exception on the first
keyword is caught so the second keyword is still invoked.  But the claimed
sink-to-sink isolation is unreachable in the program as written: Step 1 of
run_full_pipeline passes the keyword argument image_only to
collect_ads_playwright, which has no such parameter, so every invocation of
run_full_pipeline raises TypeError before any sink stage (the scheduler's own
call additionally passes skip_download and skip_sheets, which
run_full_pipeline does not accept either - that TypeError is raised inside
the scheduler's try and is what its per-keyword isolation catches). -/
theorem partial_failure_isolation_code_bug
    (parse : Nat → ParseOutcome Nat)
    (hfail : parse 3 = .error ())
    (hok : ∀ j, j ≠ 3 → parse j = .ok (some j))
    (ads : List Ad) (imgbb_key : Option String) (skip_upload : Bool)
    (daily_limit : Nat) (k0 k1 : Keyword)
    (h0 : k0.enabled = true) (h1 : k1.enabled = true)
    (effect : Nat → Nat → Nat → Except Unit Nat) (already : Nat)
    (halready : already < daily_limit)
    (heffect : ∀ l c, effect 0 l c = .error ()) :
    extract_ad_data parse [0, 1, 2, 3, 4, 5, 6, 7, 8, 9] 10 =
      [0, 1, 2, 4, 5, 6, 7, 8, 9] ∧
    (1, already) ∈
      (run_scheduled_collection daily_limit [k0, k1] effect already).2 ∧
    ("image_only" ∈ collect_call_kwargs ∧
      "image_only" ∉ collect_ads_playwright_params) ∧
    run_full_pipeline ads imgbb_key skip_upload = .error () ∧
    kwargsBind run_full_pipeline_params scheduler_call_kwargs = false := by
  have hnot : ¬ daily_limit ≤ already := by omega
  refine ⟨?_, ?_, by decide, rfl, by decide⟩
  · simp [extract_ad_data, hfail, hok 0 (by decide), hok 1 (by decide),
      hok 2 (by decide), hok 4 (by decide), hok 5 (by decide),
      hok 6 (by decide), hok 7 (by decide), hok 8 (by decide),
      hok 9 (by decide)]
  · simp only [run_scheduled_collection, List.filter_cons, h0, h1,
      List.filter_nil, if_neg hnot]
    simp only [schedLoop, if_neg hnot, heffect]
    cases heff2 : effect 1 (min k1.limit (daily_limit - already)) already <;>
      simp [heff2]

/-- C6 witness: a parser failing exactly on container 3, one collected
record, a configured imgbb key, and a pipeline effect that raises on the
first keyword (as the real run_full_pipeline does on every keyword). -/
theorem partial_failure_isolation_code_bug_witness :
    ((fun j => if j = 3 then .error () else .ok (some j) :
        Nat → ParseOutcome Nat) 3 = .error ()) ∧
    (∀ j, j ≠ 3 →
      (fun j => if j = 3 then .error () else .ok (some j) :
        Nat → ParseOutcome Nat) j = .ok (some j)) ∧
    (0 < 5) ∧
    (∀ l c, (fun _ _ _ => Except.error () :
        Nat → Nat → Nat → Except Unit Nat) 0 l c = .error ()) ∧
    (extract_ad_data
        (fun j => if j = 3 then .error () else .ok (some j))
        [0, 1, 2, 3, 4, 5, 6, 7, 8, 9] 10 = [0, 1, 2, 4, 5, 6, 7, 8, 9] ∧
     (1, 0) ∈ (run_scheduled_collection 5 [{ query := "k0" }, { query := "k1" }]
        (fun _ _ _ => Except.error ()) 0).2 ∧
     ("image_only" ∈ collect_call_kwargs ∧
       "image_only" ∉ collect_ads_playwright_params) ∧
     run_full_pipeline [{ }] (some "K") false = .error () ∧
     kwargsBind run_full_pipeline_params scheduler_call_kwargs = false) :=
  ⟨rfl, fun j hj => by simp [hj], by decide, fun _ _ => rfl,
   partial_failure_isolation_code_bug
     (fun j => if j = 3 then .error () else .ok (some j)) rfl
     (fun j hj => by simp [hj]) [{ }] (some "K") false 5
     { query := "k0" } { query := "k1" } rfl rfl
     (fun _ _ _ => Except.error ()) 0 (by decide) (fun _ _ => rfl)⟩

/-- Every row matches its own composite key. -/
theorem rowKeyMatches_self (r : DbRow) :
    rowKeyMatches r r.keyword r.image_url = true := by
  simp [rowKeyMatches]

/-- Replacing a row that carries r's composite key by r itself leaves its
match against any fixed key unchanged. -/
theorem rowKeyMatches_replace (r q : DbRow) (k v : String) :
    rowKeyMatches (if rowKeyMatches q r.keyword r.image_url then r else q) k v
      = rowKeyMatches q k v := by
  by_cases hm : rowKeyMatches q r.keyword r.image_url
  · have h1 : q.keyword = r.keyword ∧ q.image_url = r.image_url := by
      simpa [rowKeyMatches] using hm
    simp [hm, rowKeyMatches, h1.1, h1.2]
  · simp [hm]

/-- The merge arm of upsertRow does not change the number of rows matching
any key. -/
theorem countKey_map_replace (t : List DbRow) (r : DbRow) (k v : String) :
    countKey (t.map (fun q =>
        if rowKeyMatches q r.keyword r.image_url then r else q)) k v =
      countKey t k v := by
  unfold countKey
  induction t with
  | nil => rfl
  | cons q t ih =>
    simp only [List.map_cons, List.filter_cons, rowKeyMatches_replace]
    by_cases hq : rowKeyMatches q k v <;> simp [hq, ih]

/-- A key is matched by some row exactly when it is matched a positive number
of times. -/
theorem any_iff_countKey_pos (t : List DbRow) (k v : String) :
    t.any (fun q => rowKeyMatches q k v) = true ↔ 0 < countKey t k v := by
  induction t with
  | nil => simp [countKey]
  | cons q t ih =>
    by_cases h : rowKeyMatches q k v
    · simp [countKey, List.filter_cons, h]
    · simpa [countKey, List.filter_cons, h] using ih

/-- Matched-row counts add over list concatenation. -/
theorem countKey_append (t s : List DbRow) (k v : String) :
    countKey (t ++ s) k v = countKey t k v + countKey s k v := by
  simp [countKey, List.filter_append]

/-- upsertRow leaves a key that was matched at most once matched exactly
once. -/
theorem countKey_upsert_self_eq_one (t : List DbRow) (r : DbRow)
    (h : countKey t r.keyword r.image_url ≤ 1) :
    countKey (upsertRow t r) r.keyword r.image_url = 1 := by
  unfold upsertRow
  split
  · rename_i hany
    rw [countKey_map_replace]
    have := (any_iff_countKey_pos t r.keyword r.image_url).1 hany
    omega
  · rename_i hany
    have h0 : countKey t r.keyword r.image_url = 0 := by
      rcases Nat.eq_zero_or_pos (countKey t r.keyword r.image_url) with h1 | h1
      · exact h1
      · exact absurd ((any_iff_countKey_pos t r.keyword r.image_url).2 h1) hany
    have hone : countKey [r] r.keyword r.image_url = 1 := by
      simp [countKey, List.filter_cons, rowKeyMatches_self]
    rw [countKey_append]
    omega

/-- upsertRow preserves the at-most-one-row-per-key invariant. -/
theorem countKey_upsert_le_one (t : List DbRow) (r : DbRow) (k v : String)
    (h : countKey t k v ≤ 1) : countKey (upsertRow t r) k v ≤ 1 := by
  unfold upsertRow
  split
  · rw [countKey_map_replace]; exact h
  · rename_i hany
    rw [countKey_append]
    by_cases hr : rowKeyMatches r k v
    · have hkey : r.keyword = k ∧ r.image_url = v := by
        simpa [rowKeyMatches] using hr
      have h0 : countKey t k v = 0 := by
        rcases Nat.eq_zero_or_pos (countKey t k v) with h1 | h1
        · exact h1
        · rw [← hkey.1, ← hkey.2] at h1
          exact absurd ((any_iff_countKey_pos t r.keyword r.image_url).2 h1) hany
      have hone : countKey [r] k v = 1 := by
        simp [countKey, List.filter_cons, hr]
      omega
    · have hzero : countKey [r] k v = 0 := by
        simp [countKey, List.filter_cons, hr]
      omega

/-- Upserting a row whose key is already present keeps the table size. -/
theorem upsertRow_length_of_any (t : List DbRow) (r : DbRow)
    (h : t.any (fun q => rowKeyMatches q r.keyword r.image_url) = true) :
    (upsertRow t r).length = t.length := by
  simp [upsertRow, h]

/-- C8: when the table holds at most one row per composite (keyword,
image-URL) key, delivering the same record twice through
save_ads_to_supabase counts both deliveries as saved (the upsert never
raises), leaves exactly one row under the record's (keyword, first image
URL) key, preserves the at-most-one-row invariant for every key, and does
not grow the table on the re-delivery. -/
theorem upsert_composite_key_idempotent
    (query now : String) (ads_with_urls : String → Option String)
    (table : List DbRow) (ad : Ad) (u : String) (rest : List String)
    (st1 st2 : DbState)
    (hurls : ad.image_urls = u :: rest)
    (huniq : ∀ k v, countKey table k v ≤ 1)
    (hst1 : st1 = save_ads_to_supabase true query now ads_with_urls table [ad])
    (hst2 : st2 = save_ads_to_supabase true query now ads_with_urls
      st1.table [ad]) :
    st1.saved = 1 ∧ st2.saved = 1 ∧
    countKey st2.table query u = 1 ∧
    (∀ k v, countKey st2.table k v ≤ 1) ∧
    st2.table.length = st1.table.length := by
  subst hst1
  subst hst2
  simp only [save_ads_to_supabase, if_pos, List.foldl_cons, List.foldl_nil,
    saveAdStep, hurls]
  set row : DbRow :=
    { keyword := query,
      page_name := ad.page_name.getD "Unknown",
      ad_text := adTextToArray ad.ad_text,
      image_url := u,
      permanent_image_url :=
        match ads_with_urls u with
        | some u' => some u'
        | none => ad.permanent_image_url,
      landing_url := ad.landing_url,
      collected_at := ad.collected_at.getD now } with hrow
  have hkq : row.keyword = query := rfl
  have hku : row.image_url = u := rfl
  have hc1 : countKey (upsertRow table row) query u = 1 := by
    rw [← hkq, ← hku]
    exact countKey_upsert_self_eq_one table row (by rw [hkq, hku]; exact huniq query u)
  have hle1 : ∀ k v, countKey (upsertRow table row) k v ≤ 1 :=
    fun k v => countKey_upsert_le_one table row k v (huniq k v)
  have hany : (upsertRow table row).any
      (fun q => rowKeyMatches q row.keyword row.image_url) = true := by
    refine (any_iff_countKey_pos _ _ _).2 ?_
    rw [hkq, hku, hc1]
    omega
  refine ⟨by trivial, by trivial, ?_, ?_, ?_⟩
  · rw [← hkq, ← hku]
    exact countKey_upsert_self_eq_one (upsertRow table row) row
      (by rw [hkq, hku]; omega)
  · exact fun k v => countKey_upsert_le_one (upsertRow table row) row k v (hle1 k v)
  · exact upsertRow_length_of_any (upsertRow table row) row hany

/-- C8 witness: delivering the record of advertiser A twice into an empty
table. -/
theorem upsert_composite_key_idempotent_witness :
    (save_ads_to_supabase true "kw" "now" (fun _ => none) [] [adA]).saved = 1 ∧
    (save_ads_to_supabase true "kw" "now" (fun _ => none)
      (save_ads_to_supabase true "kw" "now" (fun _ => none) [] [adA]).table
      [adA]).saved = 1 ∧
    countKey (save_ads_to_supabase true "kw" "now" (fun _ => none)
      (save_ads_to_supabase true "kw" "now" (fun _ => none) [] [adA]).table
      [adA]).table "kw" "uA" = 1 ∧
    (∀ k v, countKey (save_ads_to_supabase true "kw" "now" (fun _ => none)
      (save_ads_to_supabase true "kw" "now" (fun _ => none) [] [adA]).table
      [adA]).table k v ≤ 1) ∧
    (save_ads_to_supabase true "kw" "now" (fun _ => none)
      (save_ads_to_supabase true "kw" "now" (fun _ => none) [] [adA]).table
      [adA]).table.length =
      (save_ads_to_supabase true "kw" "now" (fun _ => none) [] [adA]).table.length :=
  upsert_composite_key_idempotent "kw" "now" (fun _ => none) [] adA "uA" []
    _ _ rfl (fun k v => by simp [countKey]) rfl rfl

/-- Reading the durable log through an extended trace splits at the
concatenation point. -/
theorem hashLogAfter_append (init : List String) (evs evs' : List Ev) :
    hashLogAfter init (evs ++ evs') =
      hashLogAfter (hashLogAfter init evs) evs' := by
  simp [hashLogAfter, List.foldl_append]

/-- Adding to the Python set keeps every previous member. -/
theorem mem_setAdd (s : List String) (x h : String) (hh : h ∈ s) :
    h ∈ setAdd s x := by
  unfold setAdd
  split
  · exact hh
  · exact List.mem_append_left _ hh

/-- One imgbb loop iteration performs no durable hash-log write. -/
theorem imgbbStep_no_hashLogWrite (skip : Bool)
    (download : String → Option Bytes)
    (imgbb_upload : Bytes → String → Option String)
    (st : ImgbbState) (ad : Ad) (init : List String) :
    hashLogAfter init (imgbbStep skip download imgbb_upload st ad).events =
      hashLogAfter init st.events := by
  unfold imgbbStep
  cases hu : ad.image_urls with
  | nil => rfl
  | cons u rest =>
    dsimp only
    by_cases hperm : ad.permanent_image_url.isSome = true
    · rw [if_pos hperm]
    · rw [if_neg hperm]
      cases hdl : download u with
      | none => simp [hashLogAfter_append, hashLogAfter]
      | some bytes =>
        dsimp only
        by_cases hdup :
            (skip && st.seen_hashes.contains (calculate_image_hash bytes)) = true
        · rw [if_pos hdup]
          simp [hashLogAfter_append, hashLogAfter]
        · rw [if_neg hdup]
          cases hupl : imgbb_upload bytes (safe_page_name
              (ad.page_name.getD "unknown") ++ "_" ++
              (calculate_image_hash bytes).take 8) <;>
            simp [hashLogAfter_append, hashLogAfter]

/-- The whole imgbb loop performs no durable hash-log write. -/
theorem imgbb_fold_no_hashLogWrite (skip : Bool)
    (download : String → Option Bytes)
    (imgbb_upload : Bytes → String → Option String) (init : List String) :
    ∀ (ads : List Ad) (st : ImgbbState),
      hashLogAfter init
          (ads.foldl (imgbbStep skip download imgbb_upload) st).events =
        hashLogAfter init st.events := by
  intro ads
  induction ads with
  | nil => intro st; rfl
  | cons a rest ih =>
    intro st
    rw [List.foldl_cons, ih, imgbbStep_no_hashLogWrite]

/-- One imgbb loop iteration never removes a hash from the in-memory set. -/
theorem imgbbStep_seen_mono (skip : Bool)
    (download : String → Option Bytes)
    (imgbb_upload : Bytes → String → Option String)
    (st : ImgbbState) (ad : Ad) (h : String)
    (hh : h ∈ st.seen_hashes) :
    h ∈ (imgbbStep skip download imgbb_upload st ad).seen_hashes := by
  unfold imgbbStep
  cases hu : ad.image_urls with
  | nil => exact hh
  | cons u rest =>
    dsimp only
    by_cases hperm : ad.permanent_image_url.isSome = true
    · rw [if_pos hperm]; exact hh
    · rw [if_neg hperm]
      cases hdl : download u with
      | none => exact hh
      | some bytes =>
        dsimp only
        by_cases hdup :
            (skip && st.seen_hashes.contains (calculate_image_hash bytes)) = true
        · rw [if_pos hdup]; exact hh
        · rw [if_neg hdup]
          cases hupl : imgbb_upload bytes (safe_page_name
              (ad.page_name.getD "unknown") ++ "_" ++
              (calculate_image_hash bytes).take 8) <;>
            exact mem_setAdd _ _ _ hh

/-- The whole imgbb loop never removes a hash from the in-memory set. -/
theorem imgbb_fold_seen_mono (skip : Bool)
    (download : String → Option Bytes)
    (imgbb_upload : Bytes → String → Option String) :
    ∀ (ads : List Ad) (st : ImgbbState) (h : String),
      h ∈ st.seen_hashes →
      h ∈ (ads.foldl (imgbbStep skip download imgbb_upload) st).seen_hashes := by
  intro ads
  induction ads with
  | nil => intro st h hh; exact hh
  | cons a rest ih =>
    intro st h hh
    rw [List.foldl_cons]
    exact ih _ h (imgbbStep_seen_mono skip download imgbb_upload st a h hh)

/-- One R2 loop iteration performs no durable hash-log write. -/
theorem r2Step_no_hashLogWrite (skip : Bool) (today public_url : String)
    (download : String → Option Bytes)
    (r2_put_ok : Bytes → String → Bool) (r2_exists : String → Bool)
    (st : R2State) (ad : Ad) (init : List String) :
    hashLogAfter init (r2Step skip today public_url download r2_put_ok
        r2_exists st ad).events = hashLogAfter init st.events := by
  unfold r2Step
  cases hu : ad.image_urls with
  | nil => rfl
  | cons u rest =>
    dsimp only
    by_cases hr2 : ad.r2_image_url.isSome = true
    · rw [if_pos hr2]
    · rw [if_neg hr2]
      cases hdl : download u with
      | none => simp [hashLogAfter_append, hashLogAfter]
      | some bytes =>
        dsimp only
        by_cases hdup :
            (skip && st.seen_hashes.contains (calculate_image_hash bytes)) = true
        · rw [if_pos hdup]
          simp [hashLogAfter_append, hashLogAfter]
        · rw [if_neg hdup]
          by_cases hex : r2_exists (today ++ "_" ++ safe_page_name
              (ad.page_name.getD "unknown") ++ "_" ++
              (calculate_image_hash bytes).take 8 ++ ".png") = true
          · rw [if_pos hex]
            simp [hashLogAfter_append, hashLogAfter]
          · rw [if_neg hex]
            by_cases hput : r2_put_ok bytes (today ++ "_" ++ safe_page_name
                (ad.page_name.getD "unknown") ++ "_" ++
                (calculate_image_hash bytes).take 8 ++ ".png") = true
            · rw [if_pos hput]
              simp [hashLogAfter_append, hashLogAfter]
            · rw [if_neg hput]
              simp [hashLogAfter_append, hashLogAfter]

/-- The whole R2 loop performs no durable hash-log write. -/
theorem r2_fold_no_hashLogWrite (skip : Bool) (today public_url : String)
    (download : String → Option Bytes)
    (r2_put_ok : Bytes → String → Bool) (r2_exists : String → Bool)
    (init : List String) :
    ∀ (ads : List Ad) (st : R2State),
      hashLogAfter init (ads.foldl
          (r2Step skip today public_url download r2_put_ok r2_exists) st).events =
        hashLogAfter init st.events := by
  intro ads
  induction ads with
  | nil => intro st; rfl
  | cons a rest ih =>
    intro st
    rw [List.foldl_cons, ih, r2Step_no_hashLogWrite]

/-- One R2 loop iteration never removes a hash from the in-memory set. -/
theorem r2Step_seen_mono (skip : Bool) (today public_url : String)
    (download : String → Option Bytes)
    (r2_put_ok : Bytes → String → Bool) (r2_exists : String → Bool)
    (st : R2State) (ad : Ad) (h : String)
    (hh : h ∈ st.seen_hashes) :
    h ∈ (r2Step skip today public_url download r2_put_ok r2_exists
        st ad).seen_hashes := by
  unfold r2Step
  cases hu : ad.image_urls with
  | nil => exact hh
  | cons u rest =>
    dsimp only
    by_cases hr2 : ad.r2_image_url.isSome = true
    · rw [if_pos hr2]; exact hh
    · rw [if_neg hr2]
      cases hdl : download u with
      | none => exact hh
      | some bytes =>
        dsimp only
        by_cases hdup :
            (skip && st.seen_hashes.contains (calculate_image_hash bytes)) = true
        · rw [if_pos hdup]; exact hh
        · rw [if_neg hdup]
          by_cases hex : r2_exists (today ++ "_" ++ safe_page_name
              (ad.page_name.getD "unknown") ++ "_" ++
              (calculate_image_hash bytes).take 8 ++ ".png") = true
          · rw [if_pos hex]
            exact mem_setAdd _ _ _ hh
          · rw [if_neg hex]
            by_cases hput : r2_put_ok bytes (today ++ "_" ++ safe_page_name
                (ad.page_name.getD "unknown") ++ "_" ++
                (calculate_image_hash bytes).take 8 ++ ".png") = true
            · rw [if_pos hput]
              exact mem_setAdd _ _ _ hh
            · rw [if_neg hput]
              exact mem_setAdd _ _ _ hh

/-- The whole R2 loop never removes a hash from the in-memory set. -/
theorem r2_fold_seen_mono (skip : Bool) (today public_url : String)
    (download : String → Option Bytes)
    (r2_put_ok : Bytes → String → Bool) (r2_exists : String → Bool) :
    ∀ (ads : List Ad) (st : R2State) (h : String),
      h ∈ st.seen_hashes →
      h ∈ (ads.foldl
          (r2Step skip today public_url download r2_put_ok r2_exists)
          st).seen_hashes := by
  intro ads
  induction ads with
  | nil => intro st h hh; exact hh
  | cons a rest ih =>
    intro st h hh
    rw [List.foldl_cons]
    exact ih _ h (r2Step_seen_mono skip today public_url download r2_put_ok
      r2_exists st a h hh)

/-- A list with a member is not isEmpty. -/
theorem isEmpty_false_of_mem {α : Type} (l : List α) (x : α) (hx : x ∈ l) :
    l.isEmpty = false := by
  cases l
  · cases hx
  · rfl

/-- C9 counterexample: in a two-record imgbb run, after the first record has
been admitted (uploaded, its digest in the in-memory set) the durable hash
log reconstructed from the event trace still has its start-of-run (empty)
content: the admission was not appended to the file, so a crash at this point
loses it. -/
theorem hash_log_not_appended_mid_run :
    (([adA, adB].take 1).foldl
        (imgbbStep true sameBytesDownload scenarioUpload)
        { seen_hashes := [] }).uploaded = 1 ∧
    (([adA, adB].take 1).foldl
        (imgbbStep true sameBytesDownload scenarioUpload)
        { seen_hashes := [] }).seen_hashes = [calculate_image_hash [9, 9]] ∧
    hashLogAfter [] (([adA, adB].take 1).foldl
        (imgbbStep true sameBytesDownload scenarioUpload)
        { seen_hashes := [] }).events = [] := by
  decide

/-- C9 amended: the durable hash log is read once at run start to seed the
in-memory set; while records are processed the file on disk is never
written, and at the end of the run it is rewritten once, wholesale, with the
final in-memory set - which contains every hash committed before the run -
so a crash mid-run loses every admission of the current run, though not the
previously committed hashes.  The imgbb and R2 sink variants behave
identically. -/
theorem hash_log_read_once_written_once
    (today public_url : String)
    (download : String → Option Bytes)
    (imgbb_upload : Bytes → String → Option String)
    (r2_put_ok : Bytes → String → Bool) (r2_exists : String → Bool)
    (init : List String) (ads : List Ad) (k : Nat) (h0 : String)
    (hinit : h0 ∈ init) :
    hashLogAfter init ((ads.take k).foldl
        (imgbbStep true download imgbb_upload)
        { seen_hashes := init }).events = init ∧
    (hashLogAfter init
        (process_raw_file_with_imgbb true download imgbb_upload init ads).1.events
      = (process_raw_file_with_imgbb true download imgbb_upload init
          ads).1.seen_hashes ∧
     ∀ h ∈ init, h ∈ (process_raw_file_with_imgbb true download imgbb_upload
        init ads).1.seen_hashes) ∧
    hashLogAfter init ((ads.take k).foldl
        (r2Step true today public_url download r2_put_ok r2_exists)
        { seen_hashes := init }).events = init ∧
    (hashLogAfter init (process_raw_file_to_r2 true today public_url download
        r2_put_ok r2_exists init ads).events
      = (process_raw_file_to_r2 true today public_url download r2_put_ok
          r2_exists init ads).seen_hashes ∧
     ∀ h ∈ init, h ∈ (process_raw_file_to_r2 true today public_url download
        r2_put_ok r2_exists init ads).seen_hashes) := by
  have himgbbMono : ∀ h ∈ init,
      h ∈ (ads.foldl (imgbbStep true download imgbb_upload)
        { seen_hashes := init }).seen_hashes :=
    fun h hh => imgbb_fold_seen_mono true download imgbb_upload ads
      { seen_hashes := init } h hh
  have hr2Mono : ∀ h ∈ init,
      h ∈ (ads.foldl (r2Step true today public_url download r2_put_ok r2_exists)
        { seen_hashes := init }).seen_hashes :=
    fun h hh => r2_fold_seen_mono true today public_url download r2_put_ok
      r2_exists ads { seen_hashes := init } h hh
  have himgbbNe : (ads.foldl (imgbbStep true download imgbb_upload)
      { seen_hashes := init }).seen_hashes.isEmpty = false :=
    isEmpty_false_of_mem _ h0 (himgbbMono h0 hinit)
  have hr2Ne : (ads.foldl (r2Step true today public_url download r2_put_ok
      r2_exists) { seen_hashes := init }).seen_hashes.isEmpty = false :=
    isEmpty_false_of_mem _ h0 (hr2Mono h0 hinit)
  refine ⟨?_, ⟨?_, ?_⟩, ?_, ?_, ?_⟩
  · rw [imgbb_fold_no_hashLogWrite]
    rfl
  · unfold process_raw_file_with_imgbb
    simp only [himgbbNe, if_true, Bool.and_self, Bool.not_false, Bool.and_true]
    rw [hashLogAfter_append, hashLogAfter_append,
      imgbb_fold_no_hashLogWrite]
    rfl
  · intro h hh
    unfold process_raw_file_with_imgbb
    simp only [himgbbNe, Bool.not_false, Bool.and_true, if_true]
    exact himgbbMono h hh
  · rw [r2_fold_no_hashLogWrite]
    rfl
  · unfold process_raw_file_to_r2
    simp only [hr2Ne, if_true, Bool.not_false, Bool.and_true]
    rw [hashLogAfter_append, hashLogAfter_append, r2_fold_no_hashLogWrite]
    rfl
  · intro h hh
    unfold process_raw_file_to_r2
    simp only [hr2Ne, Bool.not_false, Bool.and_true, if_true]
    exact hr2Mono h hh

/-- C9 amended witness: a run over one record starting from a durable log
holding one previously committed hash. -/
theorem hash_log_read_once_written_once_witness :
    ("h0" ∈ ["h0"]) ∧
    (hashLogAfter ["h0"] (([adA].take 1).foldl
        (imgbbStep true sameBytesDownload scenarioUpload)
        { seen_hashes := ["h0"] }).events = ["h0"] ∧
    (hashLogAfter ["h0"]
        (process_raw_file_with_imgbb true sameBytesDownload scenarioUpload
          ["h0"] [adA]).1.events
      = (process_raw_file_with_imgbb true sameBytesDownload scenarioUpload
          ["h0"] [adA]).1.seen_hashes ∧
     ∀ h ∈ ["h0"], h ∈ (process_raw_file_with_imgbb true sameBytesDownload
        scenarioUpload ["h0"] [adA]).1.seen_hashes) ∧
    hashLogAfter ["h0"] (([adA].take 1).foldl
        (r2Step true "20250101" "https://pub" sameBytesDownload
          (fun _ _ => true) (fun _ => false))
        { seen_hashes := ["h0"] }).events = ["h0"] ∧
    (hashLogAfter ["h0"] (process_raw_file_to_r2 true "20250101" "https://pub"
        sameBytesDownload (fun _ _ => true) (fun _ => false) ["h0"] [adA]).events
      = (process_raw_file_to_r2 true "20250101" "https://pub" sameBytesDownload
          (fun _ _ => true) (fun _ => false) ["h0"] [adA]).seen_hashes ∧
     ∀ h ∈ ["h0"], h ∈ (process_raw_file_to_r2 true "20250101" "https://pub"
        sameBytesDownload (fun _ _ => true) (fun _ => false) ["h0"]
        [adA]).seen_hashes)) :=
  ⟨by simp,
   hash_log_read_once_written_once "20250101" "https://pub" sameBytesDownload
     scenarioUpload (fun _ _ => true) (fun _ => false) ["h0"] [adA] 1 "h0"
     (by simp)⟩

end MetaLibrary
